import Mathlib

/-!
# POSIX timespec helpers (`timespec_helpers.h`)

A shallow embedding of the helper functions of `timespec_helpers.h`.

Data model.  The header is built for an LP64 target: `time_t`, `long`
(the type of `tv_nsec`) and `int64_t` are 64-bit two's-complement signed
integers, `uint64_t` and `unsigned long` are 64-bit unsigned integers and
`int` is 32 bits wide.  A machine integer is represented by the mathematical
integer it denotes; every addition, subtraction and multiplication of the
source is followed by an explicit reduction to the width of its C type
(`wrap64` for the signed 64-bit types, `toU64` for the unsigned ones), so a
result that leaves the range wraps modulo `2^64`.  The C operators `/` and
`%` truncate toward zero (C99 6.5.5) and are `Int.tdiv` and `Int.tmod`.
-/

namespace TimeHelpers

/-! ## Constants and machine arithmetic -/

def MSEC_PER_SEC : Int := 1000

def USEC_PER_SEC : Int := 1000000

def NSEC_PER_SEC : Int := 1000000000

def INT64_MIN : Int := -9223372036854775808

def INT64_MAX : Int := 9223372036854775807

def UINT64_MAX : Int := 18446744073709551615

/-- Value of an integer after conversion to a signed 64-bit type
(`time_t`, `long`, `int64_t`): reduction modulo `2^64` into
`[-2^63, 2^63)`. -/
def wrap64 (x : Int) : Int :=
  (x + 9223372036854775808) % 18446744073709551616 - 9223372036854775808

/-- Value of an integer after conversion to an unsigned 64-bit type
(`uint64_t`, `unsigned long`): reduction modulo `2^64` into `[0, 2^64)`. -/
def toU64 (x : Int) : Int :=
  x % 18446744073709551616

/-- Value of an integer after conversion to `int` (32 bits). -/
def wrap32 (x : Int) : Int :=
  (x + 2147483648) % 4294967296 - 2147483648

/-- The integer is representable in a signed 64-bit type. -/
def FitsInt64 (x : Int) : Prop :=
  INT64_MIN ≤ x ∧ x ≤ INT64_MAX

instance (x : Int) : Decidable (FitsInt64 x) := by
  unfold FitsInt64; exact inferInstance

/-- The integer is representable in an unsigned 64-bit type. -/
def FitsUInt64 (x : Int) : Prop :=
  0 ≤ x ∧ x ≤ UINT64_MAX

instance (x : Int) : Decidable (FitsUInt64 x) := by
  unfold FitsUInt64; exact inferInstance

/-! ## The time value -/

/-- The `struct timespec` of `<time.h>`: seconds and nanoseconds. -/
structure timespec where
  tv_sec : Int
  tv_nsec : Int
deriving DecidableEq

/-- A normalized timespec: `0 <= tv_nsec < NSEC_PER_SEC` (comment of
`timespec_normalize`). -/
def Normalized (t : timespec) : Prop :=
  0 ≤ t.tv_nsec ∧ t.tv_nsec < NSEC_PER_SEC

instance (t : timespec) : Decidable (Normalized t) := by
  unfold Normalized; exact inferInstance

/-- Both fields hold values of their C types. -/
def WellFormed (t : timespec) : Prop :=
  FitsInt64 t.tv_sec ∧ FitsInt64 t.tv_nsec

instance (t : timespec) : Decidable (WellFormed t) := by
  unfold WellFormed; exact inferInstance

/-! ## The functions of the header -/

/-- The function `timespec_normalize(time_t sec, int64_t nsec)`. -/
def timespec_normalize (sec nsec : Int) : timespec :=
  -- sec += nsec / NSEC_PER_SEC;
  let sec1 := wrap64 (sec + Int.tdiv nsec NSEC_PER_SEC)
  -- nsec = nsec % NSEC_PER_SEC;
  let nsec1 := Int.tmod nsec NSEC_PER_SEC
  -- if (nsec < 0) { nsec += NSEC_PER_SEC; --sec; }
  if nsec1 < 0 then
    { tv_sec := wrap64 (sec1 - 1), tv_nsec := wrap64 (nsec1 + NSEC_PER_SEC) }
  else
    { tv_sec := sec1, tv_nsec := nsec1 }

/-- The function `timespec_equal`: 1 if both fields are equal, otherwise 0. -/
def timespec_equal (a b : timespec) : Int :=
  if a.tv_sec = b.tv_sec ∧ a.tv_nsec = b.tv_nsec then 1 else 0

/-- The function `timespec_compare`; the `long` difference of the last
`return` is converted to the `int` return type. -/
def timespec_compare (a b : timespec) : Int :=
  if a.tv_sec < b.tv_sec then -1
  else if a.tv_sec > b.tv_sec then 1
  else wrap32 (wrap64 (a.tv_nsec - b.tv_nsec))

/-- The function `timespec_is_valid`. -/
def timespec_is_valid (t : timespec) : Int :=
  if t.tv_sec < 0 then 0
  else if toU64 t.tv_nsec ≥ NSEC_PER_SEC then 0
  else 1

/-- The function `timespec_to_ns`. -/
def timespec_to_ns (t : timespec) : Int :=
  wrap64 (wrap64 (wrap64 t.tv_sec * NSEC_PER_SEC) + t.tv_nsec)

/-- The function `timespec_from_ns`. -/
def timespec_from_ns (nsec : Int) : timespec :=
  timespec_normalize 0 nsec

/-- The function `timespec_add`. -/
def timespec_add (a b : timespec) : timespec :=
  timespec_normalize (wrap64 (a.tv_sec + b.tv_sec)) (wrap64 (a.tv_nsec + b.tv_nsec))

/-- The function `timespec_sub`: `a - b`. -/
def timespec_sub (a b : timespec) : timespec :=
  timespec_normalize (wrap64 (a.tv_sec - b.tv_sec)) (wrap64 (a.tv_nsec - b.tv_nsec))

/-- The function `timespec_add_ns`; returns the value stored through `t`.
The sum is formed in `uint64_t` and converted to the `int64_t` parameter. -/
def timespec_add_ns (t : timespec) (nsec : Int) : timespec :=
  timespec_normalize t.tv_sec (wrap64 (toU64 (toU64 t.tv_nsec + nsec)))

/-- The function `timespec_sub_ns`; returns the value stored through `t`.
The difference is formed in `uint64_t` and converted to the `int64_t`
parameter. -/
def timespec_sub_ns (t : timespec) (nsec : Int) : timespec :=
  timespec_normalize t.tv_sec (wrap64 (toU64 (toU64 t.tv_nsec - nsec)))

/-- Floor-style normalization, as the specification words it: the seconds
are `s + floor(n / 1,000,000,000)` and the nanoseconds are the non-negative
floor remainder, over the mathematical integers. -/
def normalize_floor (sec nsec : Int) : timespec :=
  { tv_sec := sec + nsec / NSEC_PER_SEC, tv_nsec := nsec % NSEC_PER_SEC }

/-! ## Arithmetic lemmas -/

/-- The truncating quotient and remainder by `NSEC_PER_SEC`: the division
identity of C99 6.5.5 and the sign and size of the remainder. -/
theorem tdiv_tmod_billion (n : Int) :
    n = Int.tdiv n 1000000000 * 1000000000 + Int.tmod n 1000000000 ∧
    (0 ≤ n → 0 ≤ Int.tmod n 1000000000) ∧
    (n < 0 → Int.tmod n 1000000000 ≤ 0) ∧
    -1000000000 < Int.tmod n 1000000000 ∧ Int.tmod n 1000000000 < 1000000000 := by
  have h1 := Int.tdiv_add_tmod' n 1000000000
  have h2 : Int.tmod n 1000000000 < 1000000000 := Int.tmod_lt_of_pos n (by decide)
  have h4 := Int.tdiv_add_tmod' (-n) 1000000000
  rw [Int.neg_tdiv] at h4
  have h5 : Int.tmod (-n) 1000000000 < 1000000000 := Int.tmod_lt_of_pos _ (by decide)
  refine ⟨by omega, fun h => Int.tmod_nonneg _ h, ?_, ?_, h2⟩
  · intro h
    have h3 : 0 ≤ Int.tmod (-n) 1000000000 := Int.tmod_nonneg _ (by omega)
    omega
  · rcases Int.lt_or_le n 0 with h | h
    · omega
    · have := Int.tmod_nonneg 1000000000 h
      omega

/-- Closed form of `timespec_normalize`: floor quotient and remainder, the
seconds reduced to the width of `time_t`. -/
theorem timespec_normalize_eq (s n : Int) :
    timespec_normalize s n =
      { tv_sec := wrap64 (s + n / 1000000000), tv_nsec := n % 1000000000 } := by
  obtain ⟨h1, h2, h3, h4, h5⟩ := tdiv_tmod_billion n
  unfold timespec_normalize
  simp only [NSEC_PER_SEC, wrap64]
  split
  · next h =>
    rw [timespec.mk.injEq]
    constructor <;> omega
  · next h =>
    rw [timespec.mk.injEq]
    constructor <;> omega

/-- Closed form of `timespec_to_ns`: the total count reduced to `int64_t`. -/
theorem timespec_to_ns_eq (t : timespec) :
    timespec_to_ns t = wrap64 (t.tv_sec * 1000000000 + t.tv_nsec) := by
  simp only [timespec_to_ns, NSEC_PER_SEC, wrap64]
  omega

/-- A representable integer is unchanged by conversion to `int64_t`. -/
theorem wrap64_of_fits (x : Int) (h : FitsInt64 x) : wrap64 x = x := by
  simp only [FitsInt64, INT64_MIN, INT64_MAX] at h
  simp only [wrap64]
  omega

/-- The value of a conversion to `int64_t` is representable. -/
theorem wrap64_fits (x : Int) : FitsInt64 (wrap64 x) := by
  simp only [FitsInt64, INT64_MIN, INT64_MAX, wrap64]
  omega

/-- Every result of `timespec_normalize` is normalized. -/
theorem timespec_normalize_normalized (s n : Int) :
    Normalized (timespec_normalize s n) := by
  rw [timespec_normalize_eq]
  simp only [Normalized, NSEC_PER_SEC]
  omega

/-- The count of a normalization result is the count of its arguments, as an
`int64_t` value. -/
theorem timespec_to_ns_normalize (s n : Int) :
    timespec_to_ns (timespec_normalize s n) = wrap64 (s * 1000000000 + n) := by
  rw [timespec_to_ns_eq, timespec_normalize_eq]
  simp only [wrap64]
  omega

/-- A seconds argument may be reduced to `time_t` before or after the carry
is added. -/
theorem timespec_normalize_wrap_sec (s n : Int) :
    timespec_normalize (wrap64 s) n = timespec_normalize s n := by
  rw [timespec_normalize_eq, timespec_normalize_eq, timespec.mk.injEq]
  refine ⟨?_, rfl⟩
  simp only [wrap64]
  omega

/-! ## Normalization -/

/-- C1: for every seconds value `s` and every nanoseconds value `n` (in
particular every signed 64-bit one), the value returned by
`timespec_normalize s n` has `0 <= tv_nsec < 1,000,000,000`. -/
theorem timespec_normalize_nsec_range (s n : Int) :
    0 ≤ (timespec_normalize s n).tv_nsec ∧
      (timespec_normalize s n).tv_nsec < 1000000000 := by
  rw [timespec_normalize_eq]
  constructor <;> simp only <;> omega

/-- C2 as stated fails when the count overflows although the seconds field
does not: for `s = 9223372037`, `n = 0` the normalized value is
`{9223372037, 0}` with the seconds field intact, and `timespec_to_ns` of it is
`-9223372036709551616`, not `9223372037000000000`. -/
theorem timespec_normalize_preserves_ns_overflow :
    FitsInt64 9223372037 ∧ FitsInt64 0 ∧
    FitsInt64 (9223372037 + Int.tdiv 0 1000000000) ∧
    timespec_normalize 9223372037 0 = { tv_sec := 9223372037, tv_nsec := 0 } ∧
    timespec_to_ns (timespec_normalize 9223372037 0) = -9223372036709551616 ∧
    timespec_to_ns (timespec_normalize 9223372037 0) ≠ 9223372037 * 1000000000 + 0 := by
  decide

/-- C2 (amended): normalization preserves the total nanosecond count whenever
that count is representable.  For all `s` and `n`,
`timespec_to_ns (timespec_normalize s n)` is `s * 1,000,000,000 + n` reduced
to `int64_t`; it equals `s * 1,000,000,000 + n` if and only if that count is
representable as a signed 64-bit integer, and for a 64-bit `n` with a
representable count the seconds field is exactly
`s + floor(n / 1,000,000,000)` (it does not overflow). -/
theorem timespec_normalize_preserves_ns (s n : Int) :
    timespec_to_ns (timespec_normalize s n) = wrap64 (s * 1000000000 + n) ∧
    (timespec_to_ns (timespec_normalize s n) = s * 1000000000 + n ↔
      FitsInt64 (s * 1000000000 + n)) ∧
    (FitsInt64 n → FitsInt64 (s * 1000000000 + n) →
      (timespec_normalize s n).tv_sec = s + n / 1000000000) := by
  refine ⟨timespec_to_ns_normalize s n, ⟨fun h => ?_, fun h => ?_⟩, fun hn hc => ?_⟩
  · rw [← h]
    exact wrap64_fits _
  · rw [timespec_to_ns_normalize, wrap64_of_fits _ h]
  · rw [timespec_normalize_eq]
    simp only [FitsInt64, INT64_MIN, INT64_MAX] at hn hc
    simp only [wrap64]
    omega

/-- Witness of C2 (amended) at the specification's case
`normalize(5, 1_500_000_000)`, which is `{6, 500_000_000}` and counts
`6,500,000,000` nanoseconds. -/
theorem timespec_normalize_preserves_ns_witness :
    FitsInt64 1500000000 ∧
    FitsInt64 (5 * 1000000000 + 1500000000) ∧
    timespec_normalize 5 1500000000 = { tv_sec := 6, tv_nsec := 500000000 } ∧
    timespec_to_ns (timespec_normalize 5 1500000000) = 5 * 1000000000 + 1500000000 ∧
    (timespec_normalize 5 1500000000).tv_sec = 5 + 1500000000 / 1000000000 :=
  ⟨by decide, by decide, by decide,
    (timespec_normalize_preserves_ns 5 1500000000).2.1.mpr (by decide),
    (timespec_normalize_preserves_ns 5 1500000000).2.2 (by decide) (by decide)⟩

/-- C3: the truncate-then-fixup algorithm of `timespec_normalize` is
floor-style normalization.  For all `s` and `n` the nanoseconds are the floor
remainder `n mod 1,000,000,000` and the seconds are
`s + floor(n / 1,000,000,000)` as a `time_t` value; when that sum is
representable the result is exactly `normalize_floor s n`, and then a negative
total has negative seconds and non-negative nanoseconds. -/
theorem timespec_normalize_floor_style (s n : Int) :
    (timespec_normalize s n).tv_nsec = (normalize_floor s n).tv_nsec ∧
    (timespec_normalize s n).tv_sec = wrap64 (normalize_floor s n).tv_sec ∧
    (FitsInt64 (s + n / 1000000000) →
      timespec_normalize s n = normalize_floor s n ∧
      (s * 1000000000 + n < 0 →
        (timespec_normalize s n).tv_sec < 0 ∧ 0 ≤ (timespec_normalize s n).tv_nsec)) := by
  rw [timespec_normalize_eq]
  simp only [normalize_floor, NSEC_PER_SEC, true_and]
  intro h
  rw [wrap64_of_fits _ h]
  refine ⟨rfl, fun hneg => ⟨?_, ?_⟩⟩ <;> omega

/-- Witness of C3 at the specification's cases `normalize(0, -500_000_000)`
and `normalize(0, -1_000_000_000)`. -/
theorem timespec_normalize_floor_style_witness :
    FitsInt64 (0 + (-500000000) / 1000000000) ∧
    (0 : Int) * 1000000000 + (-500000000) < 0 ∧
    timespec_normalize 0 (-500000000) = { tv_sec := -1, tv_nsec := 500000000 } ∧
    timespec_normalize 0 (-1000000000) = { tv_sec := -1, tv_nsec := 0 } ∧
    timespec_normalize 0 (-500000000) = normalize_floor 0 (-500000000) ∧
    (timespec_normalize 0 (-500000000)).tv_sec < 0 ∧
    0 ≤ (timespec_normalize 0 (-500000000)).tv_nsec :=
  ⟨by decide, by decide, by decide, by decide,
    ((timespec_normalize_floor_style 0 (-500000000)).2.2 (by decide)).1,
    ((timespec_normalize_floor_style 0 (-500000000)).2.2 (by decide)).2 (by decide)⟩

/-! ## Conversion to and from a nanosecond count -/

/-- C4: for every normalized time value `t` whose nanosecond count is
representable as a signed 64-bit integer,
`timespec_from_ns (timespec_to_ns t)` is exactly `t`. -/
theorem timespec_from_ns_to_ns (t : timespec) (hn : Normalized t)
    (hf : FitsInt64 (t.tv_sec * 1000000000 + t.tv_nsec)) :
    timespec_from_ns (timespec_to_ns t) = t := by
  rw [timespec_to_ns_eq, wrap64_of_fits _ hf, timespec_from_ns, timespec_normalize_eq]
  obtain ⟨sec, nsec⟩ := t
  simp only [Normalized, NSEC_PER_SEC, FitsInt64, INT64_MIN, INT64_MAX] at hn hf
  simp only [wrap64, timespec.mk.injEq]
  constructor <;> omega

/-- Witness of C4 at a normalized value with negative seconds. -/
theorem timespec_from_ns_to_ns_witness :
    Normalized { tv_sec := -3, tv_nsec := 250000000 } ∧
    FitsInt64 ((-3) * 1000000000 + 250000000) ∧
    timespec_from_ns (timespec_to_ns { tv_sec := -3, tv_nsec := 250000000 }) =
      { tv_sec := -3, tv_nsec := 250000000 } :=
  ⟨by decide, by decide,
    timespec_from_ns_to_ns { tv_sec := -3, tv_nsec := 250000000 } (by decide) (by decide)⟩

/-- C5: for every `n` in the signed 64-bit range,
`timespec_to_ns (timespec_from_ns n)` is `n`. -/
theorem timespec_to_ns_from_ns (n : Int) (h : FitsInt64 n) :
    timespec_to_ns (timespec_from_ns n) = n := by
  rw [timespec_to_ns_eq, timespec_from_ns, timespec_normalize_eq]
  simp only [FitsInt64, INT64_MIN, INT64_MAX] at h
  simp only [wrap64]
  omega

/-- Witness of C5 at the most negative `int64_t` value. -/
theorem timespec_to_ns_from_ns_witness :
    FitsInt64 (-9223372036854775808) ∧
    timespec_to_ns (timespec_from_ns (-9223372036854775808)) = -9223372036854775808 :=
  ⟨by decide, timespec_to_ns_from_ns (-9223372036854775808) (by decide)⟩

/-! ## Addition and subtraction -/

/-- C6: for all time values `a` and `b`, normalized or not, `timespec_add a b`
is `timespec_normalize` of the field sums (computed in the C types, and the
exact sums when they are representable), and it is value-correct: its
nanosecond count is `timespec_to_ns a + timespec_to_ns b` as an `int64_t`
value, exactly so when that sum does not overflow. -/
theorem timespec_add_value (a b : timespec) :
    timespec_add a b =
      timespec_normalize (wrap64 (a.tv_sec + b.tv_sec)) (wrap64 (a.tv_nsec + b.tv_nsec)) ∧
    timespec_to_ns (timespec_add a b) = wrap64 (timespec_to_ns a + timespec_to_ns b) ∧
    (FitsInt64 (a.tv_sec + b.tv_sec) → FitsInt64 (a.tv_nsec + b.tv_nsec) →
      timespec_add a b =
        timespec_normalize (a.tv_sec + b.tv_sec) (a.tv_nsec + b.tv_nsec)) ∧
    (FitsInt64 (timespec_to_ns a + timespec_to_ns b) →
      timespec_to_ns (timespec_add a b) = timespec_to_ns a + timespec_to_ns b) := by
  have key : timespec_to_ns (timespec_add a b) =
      wrap64 (timespec_to_ns a + timespec_to_ns b) := by
    rw [timespec_add, timespec_to_ns_normalize, timespec_to_ns_eq, timespec_to_ns_eq]
    simp only [wrap64]
    omega
  refine ⟨rfl, key, fun hs hn => ?_, fun hv => ?_⟩
  · rw [timespec_add, wrap64_of_fits _ hs, wrap64_of_fits _ hn]
  · rw [key, wrap64_of_fits _ hv]

/-- Witness of C6 at the specification's case
`add({2, 800_000_000}, {1, 500_000_000}) = {4, 300_000_000}`. -/
theorem timespec_add_value_witness :
    FitsInt64 ((2 : Int) + 1) ∧ FitsInt64 ((800000000 : Int) + 500000000) ∧
    FitsInt64 (timespec_to_ns { tv_sec := 2, tv_nsec := 800000000 } +
      timespec_to_ns { tv_sec := 1, tv_nsec := 500000000 }) ∧
    timespec_add { tv_sec := 2, tv_nsec := 800000000 } { tv_sec := 1, tv_nsec := 500000000 } =
      { tv_sec := 4, tv_nsec := 300000000 } ∧
    timespec_add { tv_sec := 2, tv_nsec := 800000000 } { tv_sec := 1, tv_nsec := 500000000 } =
      timespec_normalize (2 + 1) (800000000 + 500000000) ∧
    timespec_to_ns (timespec_add { tv_sec := 2, tv_nsec := 800000000 }
        { tv_sec := 1, tv_nsec := 500000000 }) =
      timespec_to_ns { tv_sec := 2, tv_nsec := 800000000 } +
        timespec_to_ns { tv_sec := 1, tv_nsec := 500000000 } :=
  ⟨by decide, by decide, by decide, by decide,
    (timespec_add_value { tv_sec := 2, tv_nsec := 800000000 }
      { tv_sec := 1, tv_nsec := 500000000 }).2.2.1 (by decide) (by decide),
    (timespec_add_value { tv_sec := 2, tv_nsec := 800000000 }
      { tv_sec := 1, tv_nsec := 500000000 }).2.2.2 (by decide)⟩

/-- C7: for all time values `a` and `b`, normalized or not, `timespec_sub a b`
is `timespec_normalize` of the field differences (computed in the C types,
and the exact differences when they are representable), and it is
value-correct: its nanosecond count is `timespec_to_ns a - timespec_to_ns b`
as an `int64_t` value, exactly so when that difference does not overflow.
When the counts of `a` and `b` and the nanosecond difference are
representable and `a` counts less than `b`, the result has negative `tv_sec`
and `0 <= tv_nsec < 1,000,000,000`. -/
theorem timespec_sub_value (a b : timespec) :
    timespec_sub a b =
      timespec_normalize (wrap64 (a.tv_sec - b.tv_sec)) (wrap64 (a.tv_nsec - b.tv_nsec)) ∧
    timespec_to_ns (timespec_sub a b) = wrap64 (timespec_to_ns a - timespec_to_ns b) ∧
    (FitsInt64 (a.tv_sec - b.tv_sec) → FitsInt64 (a.tv_nsec - b.tv_nsec) →
      timespec_sub a b =
        timespec_normalize (a.tv_sec - b.tv_sec) (a.tv_nsec - b.tv_nsec)) ∧
    (FitsInt64 (timespec_to_ns a - timespec_to_ns b) →
      timespec_to_ns (timespec_sub a b) = timespec_to_ns a - timespec_to_ns b) ∧
    (FitsInt64 (a.tv_sec * 1000000000 + a.tv_nsec) →
      FitsInt64 (b.tv_sec * 1000000000 + b.tv_nsec) →
      FitsInt64 (a.tv_nsec - b.tv_nsec) →
      timespec_to_ns a < timespec_to_ns b →
      (timespec_sub a b).tv_sec < 0 ∧ 0 ≤ (timespec_sub a b).tv_nsec ∧
        (timespec_sub a b).tv_nsec < 1000000000) := by
  have key : timespec_to_ns (timespec_sub a b) =
      wrap64 (timespec_to_ns a - timespec_to_ns b) := by
    rw [timespec_sub, timespec_to_ns_normalize, timespec_to_ns_eq, timespec_to_ns_eq]
    simp only [wrap64]
    omega
  refine ⟨rfl, key, fun hs hn => ?_, fun hv => ?_, fun ha hb hn hlt => ?_⟩
  · rw [timespec_sub, wrap64_of_fits _ hs, wrap64_of_fits _ hn]
  · rw [key, wrap64_of_fits _ hv]
  · rw [timespec_to_ns_eq, timespec_to_ns_eq, wrap64_of_fits _ ha, wrap64_of_fits _ hb] at hlt
    rw [timespec_sub, wrap64_of_fits _ hn, timespec_normalize_eq]
    simp only [FitsInt64, INT64_MIN, INT64_MAX] at ha hb hn
    simp only [wrap64]
    refine ⟨?_, ?_, ?_⟩ <;> omega

/-- Witness of C7 at `a = {1, 200_000_000}` and `b = {2, 700_000_000}`,
where `a` is less than `b` and the difference is `{-2, 500_000_000}`. -/
theorem timespec_sub_value_witness :
    FitsInt64 ((1 : Int) - 2) ∧ FitsInt64 ((200000000 : Int) - 700000000) ∧
    FitsInt64 (timespec_to_ns { tv_sec := 1, tv_nsec := 200000000 } -
      timespec_to_ns { tv_sec := 2, tv_nsec := 700000000 }) ∧
    FitsInt64 ((1 : Int) * 1000000000 + 200000000) ∧
    FitsInt64 ((2 : Int) * 1000000000 + 700000000) ∧
    timespec_to_ns { tv_sec := 1, tv_nsec := 200000000 } <
      timespec_to_ns { tv_sec := 2, tv_nsec := 700000000 } ∧
    timespec_sub { tv_sec := 1, tv_nsec := 200000000 } { tv_sec := 2, tv_nsec := 700000000 } =
      { tv_sec := -2, tv_nsec := 500000000 } ∧
    timespec_sub { tv_sec := 1, tv_nsec := 200000000 } { tv_sec := 2, tv_nsec := 700000000 } =
      timespec_normalize (1 - 2) (200000000 - 700000000) ∧
    timespec_to_ns (timespec_sub { tv_sec := 1, tv_nsec := 200000000 }
        { tv_sec := 2, tv_nsec := 700000000 }) =
      timespec_to_ns { tv_sec := 1, tv_nsec := 200000000 } -
        timespec_to_ns { tv_sec := 2, tv_nsec := 700000000 } ∧
    ((timespec_sub { tv_sec := 1, tv_nsec := 200000000 }
        { tv_sec := 2, tv_nsec := 700000000 }).tv_sec < 0 ∧
      0 ≤ (timespec_sub { tv_sec := 1, tv_nsec := 200000000 }
        { tv_sec := 2, tv_nsec := 700000000 }).tv_nsec ∧
      (timespec_sub { tv_sec := 1, tv_nsec := 200000000 }
        { tv_sec := 2, tv_nsec := 700000000 }).tv_nsec < 1000000000) :=
  ⟨by decide, by decide, by decide, by decide, by decide, by decide, by decide,
    (timespec_sub_value { tv_sec := 1, tv_nsec := 200000000 }
      { tv_sec := 2, tv_nsec := 700000000 }).2.2.1 (by decide) (by decide),
    (timespec_sub_value { tv_sec := 1, tv_nsec := 200000000 }
      { tv_sec := 2, tv_nsec := 700000000 }).2.2.2.1 (by decide),
    (timespec_sub_value { tv_sec := 1, tv_nsec := 200000000 }
      { tv_sec := 2, tv_nsec := 700000000 }).2.2.2.2 (by decide) (by decide) (by decide)
      (by decide)⟩

/-- C8: the results of `timespec_add`, `timespec_sub`, `timespec_add_ns` and
`timespec_sub_ns` are normalized (`0 <= tv_nsec < 1,000,000,000`) for every
input time value, normalized or not, and every nanosecond argument (in
particular every unsigned 64-bit one). -/
theorem timespec_arith_normalized (a b t : timespec) (nsec : Int) :
    Normalized (timespec_add a b) ∧ Normalized (timespec_sub a b) ∧
    Normalized (timespec_add_ns t nsec) ∧ Normalized (timespec_sub_ns t nsec) :=
  ⟨timespec_normalize_normalized _ _, timespec_normalize_normalized _ _,
    timespec_normalize_normalized _ _, timespec_normalize_normalized _ _⟩

/-- C9: `timespec_add` is commutative: for all time values `a` and `b`,
`timespec_add a b` and `timespec_add b a` have identical fields, and
`timespec_equal` returns 1 on them. -/
theorem timespec_add_comm (a b : timespec) :
    timespec_add a b = timespec_add b a ∧
    timespec_equal (timespec_add a b) (timespec_add b a) = 1 := by
  have h : timespec_add a b = timespec_add b a := by
    simp only [timespec_add, Int.add_comm a.tv_sec b.tv_sec, Int.add_comm a.tv_nsec b.tv_nsec]
  refine ⟨h, ?_⟩
  rw [h]
  simp [timespec_equal]

/-- C10: for every time value `a`, normalized or not, `timespec_sub a a`
returns `{tv_sec: 0, tv_nsec: 0}`. -/
theorem timespec_sub_self (a : timespec) :
    timespec_sub a a = { tv_sec := 0, tv_nsec := 0 } := by
  simp only [timespec_sub, Int.sub_self]
  decide

/-! ## Validity, ordering and equality -/

/-- C11: for every time value `t` whose `tv_nsec` is a `long` value (of
either sign), `timespec_is_valid t` returns 1 if and only if `tv_sec >= 0` and
`0 <= tv_nsec < 1,000,000,000`, and 0 otherwise: the unsigned comparison
rejects exactly the negative and the `>= 1,000,000,000` nanosecond values. -/
theorem timespec_is_valid_iff (t : timespec) (h : FitsInt64 t.tv_nsec) :
    (timespec_is_valid t = 1 ↔
      (0 ≤ t.tv_sec ∧ 0 ≤ t.tv_nsec ∧ t.tv_nsec < 1000000000)) ∧
    (timespec_is_valid t = 0 ↔
      ¬ (0 ≤ t.tv_sec ∧ 0 ≤ t.tv_nsec ∧ t.tv_nsec < 1000000000)) ∧
    (toU64 t.tv_nsec ≥ 1000000000 ↔ (t.tv_nsec < 0 ∨ 1000000000 ≤ t.tv_nsec)) := by
  simp only [FitsInt64, INT64_MIN, INT64_MAX] at h
  have hu : toU64 t.tv_nsec ≥ 1000000000 ↔ (t.tv_nsec < 0 ∨ 1000000000 ≤ t.tv_nsec) := by
    simp only [toU64]
    omega
  refine ⟨?_, ?_, hu⟩
  all_goals
    unfold timespec_is_valid
    simp only [NSEC_PER_SEC]
    split
    · constructor <;> intro <;> omega
    · split
      · constructor <;> intro <;> omega
      · constructor <;> intro <;> omega

/-- Witness of C11 at the specification's cases: `{-1, 0}` is invalid,
`{0, 999_999_999}` is valid and `{0, 1_000_000_000}` is invalid; also a
negative `tv_nsec` is rejected. -/
theorem timespec_is_valid_iff_witness :
    FitsInt64 999999999 ∧
    timespec_is_valid { tv_sec := -1, tv_nsec := 0 } = 0 ∧
    timespec_is_valid { tv_sec := 0, tv_nsec := 999999999 } = 1 ∧
    timespec_is_valid { tv_sec := 0, tv_nsec := 1000000000 } = 0 ∧
    timespec_is_valid { tv_sec := 0, tv_nsec := -1 } = 0 :=
  ⟨by decide, by decide,
    (timespec_is_valid_iff { tv_sec := 0, tv_nsec := 999999999 } (by decide)).1.mpr
      (by decide),
    by decide, by decide⟩

/-- C12: for all normalized time values `a` and `b`, `timespec_compare a b` is
negative iff `a` is lexicographically less than `b` on `(tv_sec, tv_nsec)`,
zero iff both fields are identical, and positive iff `a` is greater; in
particular `timespec_compare a a` is 0. -/
theorem timespec_compare_lex (a b : timespec) (ha : Normalized a) (hb : Normalized b) :
    (timespec_compare a b < 0 ↔
      (a.tv_sec < b.tv_sec ∨ (a.tv_sec = b.tv_sec ∧ a.tv_nsec < b.tv_nsec))) ∧
    (timespec_compare a b = 0 ↔ (a.tv_sec = b.tv_sec ∧ a.tv_nsec = b.tv_nsec)) ∧
    (0 < timespec_compare a b ↔
      (b.tv_sec < a.tv_sec ∨ (a.tv_sec = b.tv_sec ∧ b.tv_nsec < a.tv_nsec))) ∧
    timespec_compare a a = 0 := by
  simp only [Normalized, NSEC_PER_SEC] at ha hb
  have hd : wrap32 (wrap64 (a.tv_nsec - b.tv_nsec)) = a.tv_nsec - b.tv_nsec := by
    simp only [wrap32, wrap64]
    omega
  have hself : timespec_compare a a = 0 := by
    simp only [timespec_compare, Int.lt_irrefl, gt_iff_lt, if_false, Int.sub_self]
    decide
  refine ⟨?_, ?_, ?_, hself⟩
  all_goals
    unfold timespec_compare
    rw [hd]
    split
    · constructor <;> intro <;> omega
    · split
      · constructor <;> intro <;> omega
      · constructor <;> intro <;> omega

/-- Witness of C12 at the specification's cases
`compare({5,100}, {5,200}) < 0` and `compare({6,0}, {5,999_999_999}) > 0`. -/
theorem timespec_compare_lex_witness :
    Normalized { tv_sec := 5, tv_nsec := 100 } ∧
    Normalized { tv_sec := 5, tv_nsec := 200 } ∧
    Normalized { tv_sec := 6, tv_nsec := 0 } ∧
    Normalized { tv_sec := 5, tv_nsec := 999999999 } ∧
    timespec_compare { tv_sec := 5, tv_nsec := 100 } { tv_sec := 5, tv_nsec := 200 } < 0 ∧
    0 < timespec_compare { tv_sec := 6, tv_nsec := 0 } { tv_sec := 5, tv_nsec := 999999999 } :=
  ⟨by decide, by decide, by decide, by decide,
    (timespec_compare_lex { tv_sec := 5, tv_nsec := 100 } { tv_sec := 5, tv_nsec := 200 }
      (by decide) (by decide)).1.mpr (by decide),
    (timespec_compare_lex { tv_sec := 6, tv_nsec := 0 } { tv_sec := 5, tv_nsec := 999999999 }
      (by decide) (by decide)).2.2.1.mpr (by decide)⟩

/-- C13 as stated fails: with equal seconds and nanosecond fields `2^32` and
`0`, the `long` difference `2^32` is converted to the `int` result 0 although
the difference is positive; with `2^31` and `0` the result is negative. -/
theorem timespec_compare_nsec_truncated :
    FitsInt64 4294967296 ∧ FitsInt64 2147483648 ∧
    timespec_compare { tv_sec := 0, tv_nsec := 4294967296 } { tv_sec := 0, tv_nsec := 0 } = 0 ∧
    (0 : Int) < 4294967296 - 0 ∧
    timespec_compare { tv_sec := 0, tv_nsec := 2147483648 } { tv_sec := 0, tv_nsec := 0 } =
      -2147483648 ∧
    (0 : Int) < 2147483648 - 0 := by
  decide

/-- C13 (amended): for every pair of time values with equal `tv_sec` whose
nanosecond difference `a.tv_nsec - b.tv_nsec` is representable in `int` (so
for all normalized values), `timespec_compare a b` returns that difference
directly, and its sign is the sign of the difference. -/
theorem timespec_compare_equal_sec (a b : timespec) (hs : a.tv_sec = b.tv_sec)
    (hd : -2147483648 ≤ a.tv_nsec - b.tv_nsec ∧ a.tv_nsec - b.tv_nsec ≤ 2147483647) :
    timespec_compare a b = a.tv_nsec - b.tv_nsec ∧
    (timespec_compare a b < 0 ↔ a.tv_nsec < b.tv_nsec) ∧
    (timespec_compare a b = 0 ↔ a.tv_nsec = b.tv_nsec) ∧
    (0 < timespec_compare a b ↔ b.tv_nsec < a.tv_nsec) := by
  have hc : timespec_compare a b = a.tv_nsec - b.tv_nsec := by
    simp only [timespec_compare, hs, Int.lt_irrefl, gt_iff_lt, if_false, wrap32, wrap64]
    omega
  rw [hc]
  refine ⟨rfl, ?_, ?_, ?_⟩ <;> constructor <;> intro <;> omega

/-- Witness of C13 (amended) at `{7, 100}` and `{7, 900_000_000}`. -/
theorem timespec_compare_equal_sec_witness :
    ((-2147483648 : Int) ≤ 100 - 900000000 ∧ (100 : Int) - 900000000 ≤ 2147483647) ∧
    timespec_compare { tv_sec := 7, tv_nsec := 100 } { tv_sec := 7, tv_nsec := 900000000 } =
      100 - 900000000 :=
  ⟨by decide,
    (timespec_compare_equal_sec { tv_sec := 7, tv_nsec := 100 }
      { tv_sec := 7, tv_nsec := 900000000 } rfl (by decide)).1⟩

/-- C14: for all time values `a` and `b`, `timespec_equal a b` returns 1 if
and only if both fields are equal (and 0 otherwise), with no normalization:
`{0, 1_000_000_000}` and `{1, 0}` have the same nanosecond count and compare
unequal. -/
theorem timespec_equal_iff (a b : timespec) :
    (timespec_equal a b = 1 ↔ (a.tv_sec = b.tv_sec ∧ a.tv_nsec = b.tv_nsec)) ∧
    (timespec_equal a b = 0 ↔ ¬ (a.tv_sec = b.tv_sec ∧ a.tv_nsec = b.tv_nsec)) ∧
    timespec_to_ns { tv_sec := 0, tv_nsec := 1000000000 } =
      timespec_to_ns { tv_sec := 1, tv_nsec := 0 } ∧
    timespec_equal { tv_sec := 0, tv_nsec := 1000000000 } { tv_sec := 1, tv_nsec := 0 } = 0 := by
  refine ⟨?_, ?_, by decide, by decide⟩
  · unfold timespec_equal
    split
    · next h => exact ⟨fun _ => h, fun _ => rfl⟩
    · next h => exact ⟨fun h1 => absurd h1 (by decide), fun h1 => absurd h1 h⟩
  · unfold timespec_equal
    split
    · next h => exact ⟨fun h1 => absurd h1 (by decide), fun h1 => absurd h h1⟩
    · next h => exact ⟨fun _ => h, fun _ => rfl⟩

/-! ## Adding and subtracting a nanosecond count -/

/-- C15 as stated fails for a large unsigned argument: for the normalized
value `{0, 0}` and `n = 2^63` the `uint64_t` sum is converted to the negative
`int64_t` value `-2^63`, so `timespec_add_ns` stores `{-9223372037, 145224192}`
and not `timespec_normalize(0, 2^63) = {9223372036, 854775808}`. -/
theorem timespec_add_ns_large :
    Normalized { tv_sec := 0, tv_nsec := 0 } ∧ FitsUInt64 9223372036854775808 ∧
    timespec_add_ns { tv_sec := 0, tv_nsec := 0 } 9223372036854775808 =
      { tv_sec := -9223372037, tv_nsec := 145224192 } ∧
    timespec_normalize 0 (0 + 9223372036854775808) =
      { tv_sec := 9223372036, tv_nsec := 854775808 } ∧
    timespec_add_ns { tv_sec := 0, tv_nsec := 0 } 9223372036854775808 ≠
      timespec_normalize 0 (0 + 9223372036854775808) ∧
    timespec_to_ns (timespec_add_ns { tv_sec := 0, tv_nsec := 0 } 9223372036854775808) ≠
      timespec_to_ns { tv_sec := 0, tv_nsec := 0 } + 9223372036854775808 := by
  decide

/-- C15 (amended): for every normalized time value `t` and every unsigned
64-bit `n`, `timespec_add_ns t n` is `timespec_normalize t.tv_sec
(t.tv_nsec + n)` with the exact sum if and only if that sum is at most
`INT64_MAX`; the count of the result is `timespec_to_ns t + n` as an `int64_t`
value, and in that case exactly so when the count is representable. -/
theorem timespec_add_ns_exact (t : timespec) (n : Int) (ht : Normalized t)
    (hn : FitsUInt64 n) :
    (timespec_add_ns t n = timespec_normalize t.tv_sec (t.tv_nsec + n) ↔
      t.tv_nsec + n ≤ INT64_MAX) ∧
    timespec_to_ns (timespec_add_ns t n) = wrap64 (timespec_to_ns t + n) ∧
    (t.tv_nsec + n ≤ INT64_MAX → FitsInt64 (timespec_to_ns t + n) →
      timespec_to_ns (timespec_add_ns t n) = timespec_to_ns t + n) := by
  simp only [Normalized, NSEC_PER_SEC] at ht
  simp only [FitsUInt64, UINT64_MAX] at hn
  have key : timespec_to_ns (timespec_add_ns t n) = wrap64 (timespec_to_ns t + n) := by
    rw [timespec_add_ns, timespec_to_ns_normalize, timespec_to_ns_eq]
    simp only [wrap64, toU64]
    omega
  refine ⟨?_, key, fun _ hv => ?_⟩
  · rw [timespec_add_ns, timespec_normalize_eq, timespec_normalize_eq, timespec.mk.injEq]
    simp only [wrap64, toU64, INT64_MAX]
    constructor
    · intro h
      omega
    · intro h
      constructor <;> omega
  · rw [key, wrap64_of_fits _ hv]

/-- Witness of C15 (amended) at `{3, 999_999_999}` and `n = 2_000_000_001`:
the result is `{6, 0}`. -/
theorem timespec_add_ns_exact_witness :
    Normalized { tv_sec := 3, tv_nsec := 999999999 } ∧ FitsUInt64 2000000001 ∧
    (999999999 : Int) + 2000000001 ≤ INT64_MAX ∧
    FitsInt64 (timespec_to_ns { tv_sec := 3, tv_nsec := 999999999 } + 2000000001) ∧
    timespec_add_ns { tv_sec := 3, tv_nsec := 999999999 } 2000000001 =
      { tv_sec := 6, tv_nsec := 0 } ∧
    timespec_add_ns { tv_sec := 3, tv_nsec := 999999999 } 2000000001 =
      timespec_normalize 3 (999999999 + 2000000001) ∧
    timespec_to_ns (timespec_add_ns { tv_sec := 3, tv_nsec := 999999999 } 2000000001) =
      timespec_to_ns { tv_sec := 3, tv_nsec := 999999999 } + 2000000001 :=
  ⟨by decide, by decide, by decide, by decide, by decide,
    (timespec_add_ns_exact { tv_sec := 3, tv_nsec := 999999999 } 2000000001
      (by decide) (by decide)).1.mpr (by decide),
    (timespec_add_ns_exact { tv_sec := 3, tv_nsec := 999999999 } 2000000001
      (by decide) (by decide)).2.2 (by decide) (by decide)⟩

/-- C17: for all normalized time values `a` and `b` whose nanosecond counts
are representable in 64 bits (seconds of either sign), `timespec_compare`
agrees with the order of the counts: it is negative, zero or positive exactly
when `timespec_to_ns a` is less than, equal to or greater than
`timespec_to_ns b`. -/
theorem timespec_compare_to_ns (a b : timespec) (ha : Normalized a) (hb : Normalized b)
    (hfa : FitsInt64 (a.tv_sec * 1000000000 + a.tv_nsec))
    (hfb : FitsInt64 (b.tv_sec * 1000000000 + b.tv_nsec)) :
    (timespec_compare a b < 0 ↔ timespec_to_ns a < timespec_to_ns b) ∧
    (timespec_compare a b = 0 ↔ timespec_to_ns a = timespec_to_ns b) ∧
    (0 < timespec_compare a b ↔ timespec_to_ns b < timespec_to_ns a) := by
  rw [timespec_to_ns_eq, timespec_to_ns_eq, wrap64_of_fits _ hfa, wrap64_of_fits _ hfb]
  simp only [Normalized, NSEC_PER_SEC] at ha hb
  have hd : wrap32 (wrap64 (a.tv_nsec - b.tv_nsec)) = a.tv_nsec - b.tv_nsec := by
    simp only [wrap32, wrap64]
    omega
  refine ⟨?_, ?_, ?_⟩
  all_goals
    unfold timespec_compare
    rw [hd]
    split
    · constructor <;> intro <;> omega
    · split
      · constructor <;> intro <;> omega
      · constructor <;> intro <;> omega

/-- Witness of C17 at `{-2, 900_000_000}` and `{-1, 100_000_000}`, both with
negative seconds. -/
theorem timespec_compare_to_ns_witness :
    Normalized { tv_sec := -2, tv_nsec := 900000000 } ∧
    Normalized { tv_sec := -1, tv_nsec := 100000000 } ∧
    FitsInt64 ((-2) * 1000000000 + 900000000) ∧
    FitsInt64 ((-1) * 1000000000 + 100000000) ∧
    timespec_to_ns { tv_sec := -2, tv_nsec := 900000000 } <
      timespec_to_ns { tv_sec := -1, tv_nsec := 100000000 } ∧
    timespec_compare { tv_sec := -2, tv_nsec := 900000000 }
      { tv_sec := -1, tv_nsec := 100000000 } < 0 :=
  ⟨by decide, by decide, by decide, by decide, by decide,
    (timespec_compare_to_ns { tv_sec := -2, tv_nsec := 900000000 }
      { tv_sec := -1, tv_nsec := 100000000 } (by decide) (by decide) (by decide)
      (by decide)).1.mpr (by decide)⟩

/-- C18: `timespec_normalize` is the identity on already-normalized input:
for every `time_t` value `s` and every `n` with `0 <= n < 1,000,000,000`,
`timespec_normalize s n = {s, n}`; and it is idempotent: for all `s` and `n`,
normalizing the fields of `timespec_normalize s n` returns the same value. -/
theorem timespec_normalize_idempotent (s n : Int) :
    (FitsInt64 s → 0 ≤ n → n < 1000000000 →
      timespec_normalize s n = { tv_sec := s, tv_nsec := n }) ∧
    timespec_normalize (timespec_normalize s n).tv_sec (timespec_normalize s n).tv_nsec =
      timespec_normalize s n := by
  constructor
  · intro hs h0 h1
    simp only [FitsInt64, INT64_MIN, INT64_MAX] at hs
    rw [timespec_normalize_eq, timespec.mk.injEq]
    simp only [wrap64]
    constructor <;> omega
  · rw [timespec_normalize_eq s n]
    simp only
    rw [timespec_normalize_eq, timespec.mk.injEq]
    simp only [wrap64]
    constructor <;> omega

/-- Witness of C18 at `s = -7`, `n = 999_999_999`. -/
theorem timespec_normalize_idempotent_witness :
    FitsInt64 (-7) ∧ (0 : Int) ≤ 999999999 ∧ (999999999 : Int) < 1000000000 ∧
    timespec_normalize (-7) 999999999 = { tv_sec := -7, tv_nsec := 999999999 } :=
  ⟨by decide, by decide, by decide,
    (timespec_normalize_idempotent (-7) 999999999).1 (by decide) (by decide) (by decide)⟩

/-- C19: subtraction undoes addition: for every normalized time value `a`
(with a `time_t` seconds field) and every time value `b`, absent overflow of
the nanosecond sum and of the nanosecond difference,
`timespec_sub (timespec_add a b) b` is exactly `a`. -/
theorem timespec_sub_add_same (a b : timespec) (ha : Normalized a)
    (hs : FitsInt64 a.tv_sec) (h1 : FitsInt64 (a.tv_nsec + b.tv_nsec))
    (h2 : FitsInt64 ((timespec_add a b).tv_nsec - b.tv_nsec)) :
    timespec_sub (timespec_add a b) b = a := by
  obtain ⟨asec, ansec⟩ := a
  obtain ⟨bsec, bnsec⟩ := b
  simp only [Normalized, NSEC_PER_SEC] at ha
  simp only at hs h1
  simp only [timespec_sub, timespec_add] at h2 ⊢
  rw [wrap64_of_fits _ h1] at h2 ⊢
  simp only [timespec_normalize_eq] at h2 ⊢
  rw [wrap64_of_fits _ h2, timespec.mk.injEq]
  simp only [FitsInt64, INT64_MIN, INT64_MAX] at hs h1 h2
  simp only [wrap64]
  constructor <;> omega

/-- Witness of C19 at `a = {2, 800_000_000}` and the non-normalized
`b = {-5, 1_700_000_000}`. -/
theorem timespec_sub_add_same_witness :
    Normalized { tv_sec := 2, tv_nsec := 800000000 } ∧
    timespec_add { tv_sec := 2, tv_nsec := 800000000 } { tv_sec := -5, tv_nsec := 1700000000 } =
      { tv_sec := -1, tv_nsec := 500000000 } ∧
    timespec_sub (timespec_add { tv_sec := 2, tv_nsec := 800000000 }
        { tv_sec := -5, tv_nsec := 1700000000 }) { tv_sec := -5, tv_nsec := 1700000000 } =
      { tv_sec := 2, tv_nsec := 800000000 } :=
  ⟨by decide, by decide,
    timespec_sub_add_same { tv_sec := 2, tv_nsec := 800000000 }
      { tv_sec := -5, tv_nsec := 1700000000 } (by decide) (by decide) (by decide)
      (by decide)⟩

/-- C20: in the round trip `timespec_to_ns (timespec_from_ns n)` over signed
64-bit `n`, the intermediate product `tv_sec * 1,000,000,000` is representable
as a signed 64-bit integer if and only if `n >= -9,223,372,036,000,000,000`;
for the remaining most negative `n` the seconds value is `-9,223,372,037`, the
product is below `INT64_MIN`, and the round trip still returns `n` with the
wrapping arithmetic. -/
theorem timespec_from_ns_product (n : Int) (h : FitsInt64 n) :
    (FitsInt64 ((timespec_from_ns n).tv_sec * 1000000000) ↔ -9223372036000000000 ≤ n) ∧
    (n < -9223372036000000000 →
      (timespec_from_ns n).tv_sec = -9223372037 ∧
      (timespec_from_ns n).tv_sec * 1000000000 < INT64_MIN ∧
      timespec_to_ns (timespec_from_ns n) = n) := by
  have hr : timespec_to_ns (timespec_from_ns n) = n := by
    rw [timespec_from_ns, timespec_to_ns_normalize, Int.zero_mul, Int.zero_add,
      wrap64_of_fits _ h]
  rw [hr, timespec_from_ns, timespec_normalize_eq]
  simp only [FitsInt64, INT64_MIN, INT64_MAX] at h ⊢
  simp only [wrap64]
  refine ⟨⟨fun h1 => ?_, fun h1 => ⟨?_, ?_⟩⟩, fun h1 => ⟨?_, ?_, trivial⟩⟩ <;> omega

/-- Witness of C20 at `n = -9,223,372,036,000,000,001`, the largest `n` whose
product is not representable. -/
theorem timespec_from_ns_product_witness :
    FitsInt64 (-9223372036000000001) ∧
    (-9223372036000000001 : Int) < -9223372036000000000 ∧
    (timespec_from_ns (-9223372036000000001)).tv_sec = -9223372037 ∧
    (timespec_from_ns (-9223372036000000001)).tv_sec * 1000000000 < INT64_MIN ∧
    timespec_to_ns (timespec_from_ns (-9223372036000000001)) = -9223372036000000001 :=
  ⟨by decide, by decide,
    (timespec_from_ns_product (-9223372036000000001) (by decide)).2 (by decide)⟩

end TimeHelpers
